import Mathlib

/-!
Shallow embedding of the CSV-to-DynamoDB import Lambda
(src/lambdas/parser/src/index.ts) together with proofs about its behaviour.

The Lambda downloads a CSV object from S3, resolves the partition-key
metadata of the target DynamoDB table, maps each CSV row to a DynamoDB item
and writes the items in bounded batches with an exponential-backoff retry
loop.  External collaborators (S3, DynamoDB, the csv-parse library and the
JavaScript Number builtin) are modelled as oracles supplied as parameters;
all control flow of the Lambda itself is translated directly from the
TypeScript source.
-/

namespace CSV2Dynamo

/-- A DynamoDB attribute value as produced by the mapper: a string payload
tagged S (text) or N (numeric).  The N payload is itself a string, exactly as
in the wire format produced by the source. -/
inductive AttributeValue : Type
  | S : String → AttributeValue
  | N : String → AttributeValue
deriving DecidableEq, Repr

/-- A parsed CSV row: the ordered column-name / value pairs delivered by
Object.entries over the record produced by csv-parse. -/
abbrev Row := List (String × String)

/-- A DynamoDB item: ordered attribute-name / value pairs. -/
abbrev DynamoItem := List (String × AttributeValue)

/-- JavaScript object property read: the first binding of the key, if any. -/
def getVal {β : Type} (c : String) : List (String × β) → Option β
  | [] => none
  | (k, v) :: rest => if k = c then some v else getVal c rest

/-! ## SchemaResolver: loadPartitionKeyMetadata -/

/-- One entry of a DescribeTable KeySchema.  All SDK response fields are
optional, which the embedding keeps as Option. -/
structure KeySchemaElement where
  AttributeName : Option String
  KeyType : Option String
deriving DecidableEq, Repr

/-- One entry of a DescribeTable AttributeDefinitions list. -/
structure AttributeDefinition where
  AttributeName : Option String
  AttributeType : Option String
deriving DecidableEq, Repr

/-- The Table part of a DescribeTable response. -/
structure TableDescription where
  KeySchema : Option (List KeySchemaElement)
  AttributeDefinitions : Option (List AttributeDefinition)
deriving DecidableEq, Repr

/-- A DescribeTable response. -/
structure DescribeTableOutput where
  Table : Option TableDescription
deriving DecidableEq, Repr

/-- Embeds response.Table?.KeySchema?.find(k => k.KeyType === "HASH"). -/
def findHashKey (resp : DescribeTableOutput) : Option KeySchemaElement :=
  (resp.Table.bind TableDescription.KeySchema).bind
    (List.find? (fun k => k.KeyType == some "HASH"))

/-- Embeds response.Table?.AttributeDefinitions?.find(a =>
a.AttributeName === keySchema?.AttributeName).  Comparing two absent fields
with === yields true in JavaScript, which the Option equality reproduces. -/
def findAttrDef (resp : DescribeTableOutput) (keySchema : Option KeySchemaElement) :
    Option AttributeDefinition :=
  (resp.Table.bind TableDescription.AttributeDefinitions).bind
    (List.find? (fun a => a.AttributeName == keySchema.bind KeySchemaElement.AttributeName))

/-- loadPartitionKeyMetadata.  The argument is the outcome of the
DescribeTableCommand round trip; an SDK failure (for instance a missing
table) surfaces as an error value and propagates.  On success the partition
key name and its declared attribute type are returned; the source stores
them in instance fields after a TypeScript cast (as "S" | "N") that performs
no runtime check, so the type component is an arbitrary string here. -/
def loadPartitionKeyMetadata (describeResult : Except String DescribeTableOutput) :
    Except String (Option String × Option String) :=
  match describeResult with
  | .error e => .error e
  | .ok resp =>
    match findHashKey resp, findAttrDef resp (findHashKey resp) with
    | some ks, some ad => .ok (ks.AttributeName, ad.AttributeType)
    | _, _ => .error "Unable to determine partition key schema from DynamoDB table."

/-! ## ItemMapper: mapRowToDynamoItem -/

/-- The partition-key coercion ternary of mapRowToDynamoItem.  `numParse` is
the semantic oracle for the JavaScript pair isNaN(Number(v)) /
String(Number(v)): `some n` means Number(v) is not NaN and renders as `n`,
`none` means Number(v) is NaN. -/
def coercePK (numParse : String → Option String) (pkType : Option String) (v : String) :
    AttributeValue :=
  if pkType = some "N" then
    match numParse v with
    | some n => .N n
    | none => .S v
  else .S v

/-- mapRowToDynamoItem: builds the item in entry order, skipping falsy
(empty) values; the partition-key column is coerced per the resolved type,
every other column is stored as S.  The partition-key name is an Option
because the source obtains it from an optional SDK field through a
non-checking TypeScript assertion. -/
def mapRowToDynamoItem (numParse : String → Option String) (pkName pkType : Option String) :
    Row → DynamoItem
  | [] => []
  | (k, v) :: rest =>
    if v = "" then mapRowToDynamoItem numParse pkName pkType rest
    else if some k = pkName then
      (k, coercePK numParse pkType v) :: mapRowToDynamoItem numParse pkName pkType rest
    else (k, AttributeValue.S v) :: mapRowToDynamoItem numParse pkName pkType rest

/-- A concrete number-parsing oracle (decimal naturals in canonical form),
used to instantiate the oracle parameter in witnesses. -/
def decNumParse (s : String) : Option String :=
  if !s.data.isEmpty && s.data.all Char.isDigit then
    some (Nat.repr (s.data.foldl (fun n c => n * 10 + (c.toNat - 48)) 0))
  else none

/-! ## BatchWriter: batchWriteItems and processRows -/

instance {ε α : Type} [DecidableEq ε] [DecidableEq α] : DecidableEq (Except ε α) := fun a b =>
  match a, b with
  | .ok x, .ok y =>
    if h : x = y then isTrue (by rw [h]) else isFalse (fun hc => by cases hc; exact h rfl)
  | .error e, .error f =>
    if h : e = f then isTrue (by rw [h]) else isFalse (fun hc => by cases hc; exact h rfl)
  | .ok _, .error _ => isFalse (fun hc => by cases hc)
  | .error _, .ok _ => isFalse (fun hc => by cases hc)

/-- The outcome of one batchWriteItems call: the batches submitted per
attempt in order, the backoff delays waited in order, the items left
unprocessed when the loop stopped, and the overall result. -/
structure BatchOutcome (α : Type) where
  submissions : List (List α)
  delays : List Nat
  finalUnprocessed : List α
  result : Except String Unit
deriving DecidableEq, Repr

/-- The message of the error thrown once retries are exhausted.  The source
builds this message with ordinary double quotes rather than backquotes, so
the two template placeholders are left verbatim in the text. -/
def writeFailMsg : String :=
  "Failed to process $\x7bunprocessed.length\x7d items after $\x7bMAX_RETRIES\x7d retries."

/-- The while loop of batchWriteItems.  `storeResp i b` is the
UnprocessedItems list DynamoDB reports for the i-th submission (0-based) of
batch b.  The loop guard is unprocessed.length > 0 && attempt < MAX_RETRIES;
`fuel` is maintained equal to MAX_RETRIES - attempt, so the fuel-zero arm is
exactly the failing attempt bound and the empty-list arms are exactly the
failing non-emptiness test.  When a submission leaves items unprocessed the
attempt counter is incremented and the delay 2 ^ attempt * base is waited
(recorded in the delay trace) before the loop continues. -/
def batchLoop (storeResp : Nat → List α → List α) (base : Nat) :
    Nat → Nat → List α → List (List α) → List Nat →
    List (List α) × List Nat × List α
  | 0, _, unprocessed, subs, dels => (subs, dels, unprocessed)
  | _ + 1, _, [], subs, dels => (subs, dels, [])
  | fuel + 1, attempt, r :: rest, subs, dels =>
    let u := storeResp subs.length (r :: rest)
    let subs' := subs ++ [r :: rest]
    if u.isEmpty then (subs', dels, u)
    else batchLoop storeResp base fuel (attempt + 1) u subs' (dels ++ [2 ^ (attempt + 1) * base])

/-- batchWriteItems: runs the retry loop from attempt 0 on the full request
list and throws the RetriesExhausted error when items remain unprocessed. -/
def batchWriteItems (storeResp : Nat → List α → List α) (maxRetries base : Nat)
    (writeRequests : List α) : BatchOutcome α :=
  let r := batchLoop storeResp base maxRetries 0 writeRequests [] []
  { submissions := r.1
    delays := r.2.1
    finalUnprocessed := r.2.2
    result := if r.2.2.isEmpty then .ok () else .error writeFailMsg }

/-- The batch partition induced by the processRows accumulator loop: push
each item, flush when the accumulator reaches the maximum size, flush the
remainder at the end. -/
def chunksOf (maxBatch : Nat) : List α → List α → List (List α)
  | [], batch => if batch.isEmpty then [] else [batch]
  | r :: rest, batch =>
    if (batch ++ [r]).length = maxBatch then
      (batch ++ [r]) :: chunksOf maxBatch rest []
    else chunksOf maxBatch rest (batch ++ [r])

/-- processRows: maps each row to an item, accumulates a batch, hands it to
batchWriteItems when it reaches the maximum size and hands the remainder
over at the end.  The first component is the ordered trace of batches passed
to batchWriteItems (a later batch is only submitted once the previous one
succeeded); the second is the first error, if any. -/
def processRowsGo (storeResp : Nat → List DynamoItem → List DynamoItem)
    (maxRetries base maxBatch : Nat) (numParse : String → Option String)
    (pkName pkType : Option String) :
    List Row → List DynamoItem → List (List DynamoItem) × Except String Unit
  | [], batch =>
    if batch.isEmpty then ([], .ok ())
    else ([batch], (batchWriteItems storeResp maxRetries base batch).result)
  | row :: rest, batch =>
    let batch' := batch ++ [mapRowToDynamoItem numParse pkName pkType row]
    if batch'.length = maxBatch then
      match (batchWriteItems storeResp maxRetries base batch').result with
      | .error e => ([batch'], .error e)
      | .ok _ =>
        let t := processRowsGo storeResp maxRetries base maxBatch numParse pkName pkType rest []
        (batch' :: t.1, t.2)
    else processRowsGo storeResp maxRetries base maxBatch numParse pkName pkType rest batch'

/-! ## Orchestrator: handleEvent and the exported handler -/

/-- The s3 part of one record of the triggering S3 event. -/
structure S3Record where
  bucket : String
  key : String
deriving DecidableEq, Repr

/-- The run environment: the external collaborators and the module-level
configuration constants.  `describeTable` is the outcome of the single
DescribeTableCommand; `s3GetObject` returns the object body when present
(`none` models a missing or non-stream body); `csvParseLib` is the csv-parse
library; `storeResp` is the BatchWriteItem collaborator; `numParse` is the
JavaScript Number oracle. -/
structure OrchEnv where
  describeTable : Except String DescribeTableOutput
  s3GetObject : String → String → Except String (Option String)
  csvParseLib : String → Except String (List Row)
  storeResp : Nat → List DynamoItem → List DynamoItem
  decodeURIComponent : String → String
  numParse : String → Option String
  maxBatchSize : Nat
  maxRetries : Nat
  baseDelayMs : Nat

/-- key.replace with the global plus pattern: every plus becomes a space. -/
def plusToSpace (s : String) : String :=
  String.mk (s.data.map (fun c => if c = '+' then ' ' else c))

/-- getCSVFileContent: fetches the object and fails when the body is missing
or not a valid stream. -/
def getCSVFileContent (env : OrchEnv) (bucket key : String) : Except String String :=
  match env.s3GetObject bucket key with
  | .error e => .error e
  | .ok none => .error "S3 response body missing or not a valid stream."
  | .ok (some content) => .ok content

/-- parseCSV: delegates to the csv-parse library and replaces any library
error with a fixed message of its own. -/
def parseCSV (env : OrchEnv) (content : String) : Except String (List Row) :=
  match env.csvParseLib content with
  | .ok rows => .ok rows
  | .error _ => .error "Failed to parse CSV content."

/-- processRows under the run configuration of the environment. -/
def processRows (env : OrchEnv) (pkName pkType : Option String) (rows : List Row) :
    List (List DynamoItem) × Except String Unit :=
  processRowsGo env.storeResp env.maxRetries env.baseDelayMs env.maxBatchSize env.numParse
    pkName pkType rows []

/-- handleEvent with an explicit trace of the S3 object fetches performed.
Only Records[0] is consulted; dereferencing record.s3 on an empty Records
array faults at runtime, modelled as an error.  The flow is: resolve the
partition-key metadata, fetch the CSV, parse it, write the rows; each
failure aborts immediately. -/
def handleEventTraced (env : OrchEnv) :
    List S3Record → List (String × String) × Except String Unit
  | [] => ([], .error "TypeError: cannot read properties of undefined")
  | record :: _ =>
    let bucket := record.bucket
    let key := env.decodeURIComponent (plusToSpace record.key)
    match loadPartitionKeyMetadata env.describeTable with
    | .error e => ([], .error e)
    | .ok (pkName, pkType) =>
      match getCSVFileContent env bucket key with
      | .error e => ([(bucket, key)], .error e)
      | .ok content =>
        match parseCSV env content with
        | .error e => ([(bucket, key)], .error e)
        | .ok rows => ([(bucket, key)], (processRows env pkName pkType rows).2)

/-- The exported handler: runs handleEvent and, on failure, logs and
rethrows the very same error. -/
def handler (env : OrchEnv) (records : List S3Record) : Except String Unit :=
  match (handleEventTraced env records).2 with
  | .error e => .error e
  | .ok u => .ok u

/-! ## Lemmas about the mapper -/

/-- The mapper introduces no attribute whose name is not a column of the row. -/
lemma mapRow_getVal_not_mem (np : String → Option String) (pn pt : Option String) :
    ∀ (row : Row) (c : String), c ∉ row.map Prod.fst →
      getVal c (mapRowToDynamoItem np pn pt row) = none
  | [], _, _ => rfl
  | (k, w) :: rest, c, hc => by
    have hkc : k ≠ c := fun h => hc (by simp [h])
    have hrest : c ∉ rest.map Prod.fst := fun h => hc (by simp [h])
    by_cases hw : w = "" <;>
      [skip; by_cases hpn : some k = pn] <;>
      simp [mapRowToDynamoItem, getVal, hw, hkc, mapRow_getVal_not_mem np pn pt rest c hrest,
        *]

/-- Characterisation of a property read on a mapped item, for rows with
pairwise distinct column names (JavaScript objects cannot repeat a key):
the value is the row value, skipped when empty, coerced when the column is
the partition key and stored as S otherwise. -/
lemma mapRow_getVal (np : String → Option String) (pn pt : Option String) :
    ∀ (row : Row), (row.map Prod.fst).Nodup → ∀ c : String,
      getVal c (mapRowToDynamoItem np pn pt row) =
        (getVal c row).bind (fun v =>
          if v = "" then none
          else some (if some c = pn then coercePK np pt v else AttributeValue.S v))
  | [], _, _ => rfl
  | (k, w) :: rest, hnd, c => by
    have hnd' : (rest.map Prod.fst).Nodup := (List.nodup_cons.mp (by simpa using hnd)).2
    have hk : k ∉ rest.map Prod.fst := (List.nodup_cons.mp (by simpa using hnd)).1
    by_cases hck : k = c
    · subst hck
      by_cases hw : w = ""
      · simp [mapRowToDynamoItem, getVal, hw, mapRow_getVal_not_mem np pn pt rest k hk]
      · by_cases hpn : some k = pn <;> simp [mapRowToDynamoItem, getVal, hw, hpn]
    · by_cases hw : w = ""
      · simp [mapRowToDynamoItem, getVal, hw, hck, mapRow_getVal np pn pt rest hnd' c]
      · by_cases hpn : some k = pn <;>
          simp [mapRowToDynamoItem, getVal, hw, hck, hpn, mapRow_getVal np pn pt rest hnd' c]

/-! ## Claims about the mapper -/

/-- C5: for a schema with numeric partition-key type, a non-empty
partition-key value that parses as a number is stored with the N tag and the
normalised numeric rendering, a non-parsing one falls back to the S tag with
the original text, and every other non-empty column is stored as S without
coercion; the mapper is a total function, so no row makes it fail. -/
theorem mapRow_numeric_pk (np : String → Option String) (pkName : String) (row : Row)
    (v : String) (hnd : (row.map Prod.fst).Nodup)
    (hv : getVal pkName row = some v) (hne : v ≠ "") :
    (∀ n, np v = some n →
      getVal pkName (mapRowToDynamoItem np (some pkName) (some "N") row) =
        some (AttributeValue.N n)) ∧
    (np v = none →
      getVal pkName (mapRowToDynamoItem np (some pkName) (some "N") row) =
        some (AttributeValue.S v)) ∧
    (∀ c w, c ≠ pkName → getVal c row = some w → w ≠ "" →
      getVal c (mapRowToDynamoItem np (some pkName) (some "N") row) =
        some (AttributeValue.S w)) := by
  refine ⟨?_, ?_, ?_⟩
  · intro n hn
    rw [mapRow_getVal np (some pkName) (some "N") row hnd pkName, hv]
    simp [hne, coercePK, hn]
  · intro hn
    rw [mapRow_getVal np (some pkName) (some "N") row hnd pkName, hv]
    simp [hne, coercePK, hn]
  · intro c w hc hw hwne
    rw [mapRow_getVal np (some pkName) (some "N") row hnd c, hw]
    simp [hwne, hc]

theorem mapRow_numeric_pk_witness :
    getVal "id" (mapRowToDynamoItem decNumParse (some "id") (some "N")
        [("id", "7"), ("name", "Alice")]) = some (AttributeValue.N "7") ∧
    getVal "name" (mapRowToDynamoItem decNumParse (some "id") (some "N")
        [("id", "7"), ("name", "Alice")]) = some (AttributeValue.S "Alice") :=
  ⟨(mapRow_numeric_pk decNumParse "id" [("id", "7"), ("name", "Alice")] "7"
      (by decide) (by decide) (by decide)).1 "7" (by decide),
   (mapRow_numeric_pk decNumParse "id" [("id", "7"), ("name", "Alice")] "7"
      (by decide) (by decide) (by decide)).2.2 "name" "Alice" (by decide) (by decide)
      (by decide)⟩

/-- C7 counterexample: a row whose partition-key source value is the empty
string is mapped to an item with no partition-key attribute at all, so the
attribute at the partition-key name is not always present. -/
theorem mapRow_pk_absent_cex :
    getVal "id" (mapRowToDynamoItem decNumParse (some "id") (some "N") [("id", "")]) =
      none := by
  decide

/-- C7 (amended): the partition-key attribute is present in the mapped item
exactly when the row carries a non-empty value for that column; when
present, it is coerced per the resolved partition-key type — stored as S
when the type is S, stored as N when the type is N and the value parses as a
number, and degraded to S otherwise. -/
theorem mapRow_pk_presence (np : String → Option String) (pn : String) (pt : Option String)
    (row : Row) (hnd : (row.map Prod.fst).Nodup) :
    (∀ v, getVal pn row = some v → v ≠ "" →
      getVal pn (mapRowToDynamoItem np (some pn) pt row) = some (coercePK np pt v)) ∧
    (getVal pn row = some "" →
      getVal pn (mapRowToDynamoItem np (some pn) pt row) = none) ∧
    (getVal pn row = none →
      getVal pn (mapRowToDynamoItem np (some pn) pt row) = none) ∧
    (∀ v, getVal pn row = some v → v ≠ "" → pt = some "S" →
      getVal pn (mapRowToDynamoItem np (some pn) pt row) = some (AttributeValue.S v)) ∧
    (∀ v n, getVal pn row = some v → v ≠ "" → pt = some "N" → np v = some n →
      getVal pn (mapRowToDynamoItem np (some pn) pt row) = some (AttributeValue.N n)) := by
  refine ⟨?_, ?_, ?_, ?_, ?_⟩
  · intro v hv hne
    rw [mapRow_getVal np (some pn) pt row hnd pn, hv]
    simp [hne]
  · intro hv
    rw [mapRow_getVal np (some pn) pt row hnd pn, hv]
    simp
  · intro hv
    rw [mapRow_getVal np (some pn) pt row hnd pn, hv]
    simp
  · intro v hv hne hpt
    rw [mapRow_getVal np (some pn) pt row hnd pn, hv]
    simp [hne, hpt, coercePK]
  · intro v n hv hne hpt hn
    rw [mapRow_getVal np (some pn) pt row hnd pn, hv]
    simp [hne, hpt, coercePK, hn]

theorem mapRow_pk_presence_witness :
    getVal "id" (mapRowToDynamoItem decNumParse (some "id") (some "S") [("id", "x")]) =
      some (AttributeValue.S "x") :=
  (mapRow_pk_presence decNumParse "id" (some "S") [("id", "x")] (by decide)).2.2.2.1
    "x" (by decide) (by decide) rfl

/-- C8: any column whose value is the empty string, and any column absent
from the row, is entirely absent from the mapped item (no null
placeholder); and mapping is a pure function of the row and schema, so
mapping the same row twice yields identical items. -/
theorem mapRow_empty_absent (np : String → Option String) (pn pt : Option String)
    (row : Row) (c : String) (hnd : (row.map Prod.fst).Nodup) :
    ((getVal c row = some "" ∨ getVal c row = none) →
      getVal c (mapRowToDynamoItem np pn pt row) = none) ∧
    mapRowToDynamoItem np pn pt row = mapRowToDynamoItem np pn pt row := by
  refine ⟨?_, rfl⟩
  intro h
  rw [mapRow_getVal np pn pt row hnd c]
  rcases h with h | h <;> simp [h]

theorem mapRow_empty_absent_witness :
    getVal "name" (mapRowToDynamoItem decNumParse (some "id") (some "N")
      [("id", "7"), ("name", "")]) = none :=
  (mapRow_empty_absent decNumParse (some "id") (some "N") [("id", "7"), ("name", "")]
      "name" (by decide)).1 (Or.inl (by decide))

/-! ## Lemmas about the retry loop -/

/-- When the store reports every submitted item back as unprocessed, the
loop submits the same batch once per remaining attempt, waits once per
attempt, and stops with the batch still unprocessed. -/
lemma batchLoop_allUnprocessed {α : Type} (storeResp : Nat → List α → List α) (base : Nat)
    (hstore : ∀ i b, storeResp i b = b) (fuel : Nat) :
    ∀ (attempt : Nat) (u : List α) (subs : List (List α)) (dels : List Nat), u ≠ [] →
      (batchLoop storeResp base fuel attempt u subs dels).1 =
        subs ++ List.replicate fuel u ∧
      (batchLoop storeResp base fuel attempt u subs dels).2.1.length =
        dels.length + fuel ∧
      (batchLoop storeResp base fuel attempt u subs dels).2.2 = u := by
  induction fuel with
  | zero =>
    intro attempt u subs dels hu
    simp [batchLoop]
  | succ fuel ih =>
    intro attempt u subs dels hu
    match u, hu with
    | r :: rest, _ =>
      have hresp : storeResp subs.length (r :: rest) = r :: rest := hstore _ _
      simp only [batchLoop, hresp, List.isEmpty_cons, Bool.false_eq_true, if_false]
      have h := ih (attempt + 1) (r :: rest) (subs ++ [r :: rest])
        (dels ++ [2 ^ (attempt + 1) * base]) (by simp)
      refine ⟨?_, ?_, h.2.2⟩
      · rw [h.1]
        simp [List.replicate_succ, List.append_assoc]
      · rw [h.2.1]
        simp
        omega

/-- Invariant of the retry loop: provided the attempt counter equals the
number of delays recorded so far and every recorded delay already follows
the backoff formula, every delay in the final trace is 2 ^ (i + 1) * base
(0-based position i), and the number of submissions exceeds the number of
recorded-delay additions by at most one. -/
lemma batchLoop_delays_spec {α : Type} (storeResp : Nat → List α → List α) (base : Nat)
    (fuel : Nat) :
    ∀ (attempt : Nat) (u : List α) (subs : List (List α)) (dels : List Nat),
      attempt = dels.length →
      (∀ i, i < dels.length → dels.get? i = some (2 ^ (i + 1) * base)) →
      (∀ i, i < (batchLoop storeResp base fuel attempt u subs dels).2.1.length →
        (batchLoop storeResp base fuel attempt u subs dels).2.1.get? i =
          some (2 ^ (i + 1) * base)) ∧
      (batchLoop storeResp base fuel attempt u subs dels).1.length + dels.length ≤
        subs.length + (batchLoop storeResp base fuel attempt u subs dels).2.1.length + 1 := by
  induction fuel with
  | zero =>
    intro attempt u subs dels _ hP
    simp only [batchLoop]
    exact ⟨hP, by omega⟩
  | succ fuel ih =>
    intro attempt u subs dels ha hP
    match u with
    | [] =>
      simp only [batchLoop]
      exact ⟨hP, by omega⟩
    | r :: rest =>
      simp only [batchLoop]
      by_cases hu : (storeResp subs.length (r :: rest)).isEmpty
      · simp only [hu, if_true]
        exact ⟨hP, by simp; omega⟩
      · simp only [hu, Bool.false_eq_true, if_false]
        have ha' : attempt + 1 = (dels ++ [2 ^ (attempt + 1) * base]).length := by
          simp [ha]
        have hP' : ∀ i, i < (dels ++ [2 ^ (attempt + 1) * base]).length →
            (dels ++ [2 ^ (attempt + 1) * base]).get? i = some (2 ^ (i + 1) * base) := by
          intro i hi
          rcases Nat.lt_or_ge i dels.length with h | h
          · rw [List.get?_append h]
            exact hP i h
          · have hieq : i = dels.length := by
              simp only [List.length_append, List.length_cons, List.length_nil] at hi
              omega
            subst hieq
            rw [List.get?_concat_length, ha]
        have h := ih (attempt + 1) (storeResp subs.length (r :: rest))
          (subs ++ [r :: rest]) (dels ++ [2 ^ (attempt + 1) * base]) ha' hP'
        refine ⟨h.1, ?_⟩
        have h2 := h.2
        simp only [List.length_append, List.length_cons, List.length_nil] at h2
        omega

/-! ## Claims about the retry loop -/

/-- C1 counterexample: with the default configuration maxRetries = 5 and a
store that reports the full batch unprocessed on every attempt, the loop
performs 5 submissions in total, not maxRetries + 1 = 6. -/
theorem batchWrite_submissions_cex :
    (batchWriteItems (fun _ (b : List Unit) => b) 5 200 [()]).submissions.length = 5 ∧
    (batchWriteItems (fun _ (b : List Unit) => b) 5 200 [()]).submissions.length ≠ 5 + 1 ∧
    (batchWriteItems (fun _ (b : List Unit) => b) 5 200 [()]).result =
      .error writeFailMsg := by
  refine ⟨by decide, by decide, rfl⟩

/-- C1 (amended): when every attempt reports the full batch as unprocessed,
batchWriteItems fails with the RetriesExhausted error after maxRetries
submissions in total — the initial submission plus maxRetries - 1
resubmissions — waiting one backoff delay after each of the maxRetries
submissions (the attempt counter reaches maxRetries), and the whole batch
remains unprocessed. -/
theorem batchWrite_retries_exhausted {α : Type} (storeResp : Nat → List α → List α)
    (maxRetries base : Nat) (reqs : List α)
    (hstore : ∀ i b, storeResp i b = b) (hreqs : reqs ≠ []) :
    (batchWriteItems storeResp maxRetries base reqs).result = .error writeFailMsg ∧
    (batchWriteItems storeResp maxRetries base reqs).submissions =
      List.replicate maxRetries reqs ∧
    (batchWriteItems storeResp maxRetries base reqs).submissions.length = maxRetries ∧
    (batchWriteItems storeResp maxRetries base reqs).delays.length = maxRetries ∧
    (batchWriteItems storeResp maxRetries base reqs).finalUnprocessed = reqs := by
  have h := batchLoop_allUnprocessed storeResp base hstore maxRetries 0 reqs [] [] hreqs
  have hne : (batchLoop storeResp base maxRetries 0 reqs [] []).2.2.isEmpty = false := by
    rw [h.2.2]
    cases reqs with
    | nil => exact absurd rfl hreqs
    | cons a l => rfl
  refine ⟨?_, ?_, ?_, ?_, ?_⟩
  · show (if (batchLoop storeResp base maxRetries 0 reqs [] []).2.2.isEmpty then
        (Except.ok () : Except String Unit) else .error writeFailMsg) = .error writeFailMsg
    rw [hne]
    rfl
  · show (batchLoop storeResp base maxRetries 0 reqs [] []).1 = _
    rw [h.1]
    rfl
  · show (batchLoop storeResp base maxRetries 0 reqs [] []).1.length = _
    rw [h.1]
    simp
  · show (batchLoop storeResp base maxRetries 0 reqs [] []).2.1.length = _
    rw [h.2.1]
    simp
  · exact h.2.2

theorem batchWrite_retries_exhausted_witness :
    (batchWriteItems (fun _ (b : List Unit) => b) 3 200 [(), ()]).submissions =
      List.replicate 3 [(), ()] ∧
    (batchWriteItems (fun _ (b : List Unit) => b) 3 200 [(), ()]).result =
      .error writeFailMsg :=
  ⟨(batchWrite_retries_exhausted (fun _ b => b) 3 200 [(), ()] (fun _ _ => rfl)
      (by decide)).2.1,
   (batchWrite_retries_exhausted (fun _ b => b) 3 200 [(), ()] (fun _ _ => rfl)
      (by decide)).1⟩

/-- C3: whenever the loop performs retry number k (that is, at least k + 1
submissions happen), the delay waited before that resubmission is
baseDelayMs * 2 ^ k: the attempt counter is incremented first and the delay
2 ^ attempt * base is computed from the incremented counter. -/
theorem batchWrite_backoff_delay {α : Type} (storeResp : Nat → List α → List α)
    (maxRetries base : Nat) (reqs : List α) (k : Nat) (hk : 1 ≤ k)
    (hret : k + 1 ≤ (batchWriteItems storeResp maxRetries base reqs).submissions.length) :
    (batchWriteItems storeResp maxRetries base reqs).delays.get? (k - 1) =
      some (base * 2 ^ k) := by
  have h := batchLoop_delays_spec storeResp base maxRetries 0 reqs [] [] rfl
    (by intro i hi; simp at hi)
  have hsub : (batchWriteItems storeResp maxRetries base reqs).submissions.length =
      (batchLoop storeResp base maxRetries 0 reqs [] []).1.length := rfl
  have hdel : (batchWriteItems storeResp maxRetries base reqs).delays =
      (batchLoop storeResp base maxRetries 0 reqs [] []).2.1 := rfl
  rw [hsub] at hret
  have hlen : k - 1 < (batchLoop storeResp base maxRetries 0 reqs [] []).2.1.length := by
    have := h.2
    simp only [List.length_nil] at this
    omega
  rw [hdel, h.1 (k - 1) hlen]
  have hkk : k - 1 + 1 = k := by omega
  rw [hkk, Nat.mul_comm]

theorem batchWrite_backoff_delay_witness :
    (batchWriteItems (fun _ (b : List Unit) => b) 5 200 [()]).delays.get? 1 =
      some (200 * 2 ^ 2) :=
  batchWrite_backoff_delay (fun _ b => b) 5 200 [()] 2 (by decide) (by decide)

/-- C9: the RetriesExhausted error does not report the number of items left
unprocessed.  The source throws the message inside ordinary double quotes,
so the template placeholders are never interpolated: two exhausted runs that
leave 3 and 1 items unprocessed raise exactly the same fixed message, which
is the placeholder text itself. -/
theorem batchWrite_remaining_not_reported :
    (batchWriteItems (fun _ (b : List Unit) => b) 5 200
        [(), (), ()]).finalUnprocessed.length = 3 ∧
    (batchWriteItems (fun _ (b : List Unit) => b) 5 200 [()]).finalUnprocessed.length = 1 ∧
    (batchWriteItems (fun _ (b : List Unit) => b) 5 200 [(), (), ()]).result =
      (batchWriteItems (fun _ (b : List Unit) => b) 5 200 [()]).result ∧
    (batchWriteItems (fun _ (b : List Unit) => b) 5 200 [(), (), ()]).result =
      .error writeFailMsg := by
  refine ⟨by decide, by decide, rfl, rfl⟩

/-! ## Lemmas about the batch partition -/

/-- Flushing the accumulator chunks preserves all items in arrival order. -/
lemma chunksOf_join {α : Type} (B : Nat) :
    ∀ (rows batch : List α), batch.length < B →
      (chunksOf B rows batch).flatten = batch ++ rows := by
  intro rows
  induction rows with
  | nil =>
    intro batch _
    cases batch with
    | nil => simp [chunksOf]
    | cons a l => simp [chunksOf]
  | cons r rest ih =>
    intro batch hb
    simp only [chunksOf]
    by_cases hfull : (batch ++ [r]).length = B
    · have hB : 0 < B := by
        simp only [List.length_append, List.length_cons, List.length_nil] at hfull
        omega
      simp only [if_pos hfull, List.flatten_cons]
      rw [ih [] (by simpa using hB)]
      simp
    · have hb' : (batch ++ [r]).length < B := by
        simp only [List.length_append, List.length_cons, List.length_nil] at hfull ⊢
        omega
      simp only [if_neg hfull]
      rw [ih (batch ++ [r]) hb']
      simp

/-- The number of chunks is the ceiling of the item count over the batch
size. -/
lemma chunksOf_length {α : Type} (B : Nat) :
    ∀ (rows batch : List α), batch.length < B →
      (chunksOf B rows batch).length = (batch.length + rows.length + B - 1) / B := by
  intro rows
  induction rows with
  | nil =>
    intro batch hb
    cases batch with
    | nil =>
      simp only [chunksOf, List.isEmpty_nil, if_true, List.length_nil]
      rw [Nat.div_eq_of_lt (by omega)]
    | cons a l =>
      simp only [chunksOf, List.isEmpty_cons, Bool.false_eq_true, if_false,
        List.length_cons, List.length_nil]
      symm
      simp only [List.length_cons] at hb
      apply Nat.div_eq_of_lt_le
      · omega
      · omega
  | cons r rest ih =>
    intro rows hb
    simp only [chunksOf]
    by_cases hfull : (rows ++ [r]).length = B
    · have hB1 : rows.length + 1 = B := by
        simp only [List.length_append, List.length_cons, List.length_nil] at hfull
        omega
      simp only [if_pos hfull, List.length_cons]
      rw [ih [] (by simp only [List.length_nil]; omega)]
      simp only [List.length_nil]
      have hnum : rows.length + (rest.length + 1) + B - 1 = (rest.length + B - 1) + B := by
        omega
      rw [hnum, Nat.add_div_right _ (by omega : 0 < B)]
      have h0 : 0 + rest.length + B - 1 = rest.length + B - 1 := by omega
      rw [h0]
    · have hb' : (rows ++ [r]).length < B := by
        simp only [List.length_append, List.length_cons, List.length_nil] at hfull ⊢
        omega
      simp only [if_neg hfull]
      rw [ih (rows ++ [r]) hb']
      have hnum : (rows ++ [r]).length + rest.length + B - 1 =
          rows.length + (rest.length + 1) + B - 1 := by
        simp only [List.length_append, List.length_cons, List.length_nil]
        omega
      rw [hnum]
      simp only [List.length_cons]

/-- Every produced chunk holds between 1 and B items. -/
lemma chunksOf_sizes {α : Type} (B : Nat) :
    ∀ (rows batch : List α), batch.length < B →
      ∀ b ∈ chunksOf B rows batch, 1 ≤ b.length ∧ b.length ≤ B := by
  intro rows
  induction rows with
  | nil =>
    intro batch hb b hbmem
    cases batch with
    | nil => simp [chunksOf] at hbmem
    | cons a l =>
      simp [chunksOf] at hbmem
      subst hbmem
      simp only [List.length_cons] at hb ⊢
      omega
  | cons r rest ih =>
    intro batch hb b hbmem
    simp only [chunksOf] at hbmem
    by_cases hfull : (batch ++ [r]).length = B
    · have hB : 0 < B := by
        simp only [List.length_append, List.length_cons, List.length_nil] at hfull
        omega
      rw [if_pos hfull] at hbmem
      rcases List.mem_cons.mp hbmem with h | h
      · subst h
        rw [hfull]
        omega
      · exact ih [] (by simp only [List.length_nil]; omega) b h
    · have hb' : (batch ++ [r]).length < B := by
        simp only [List.length_append, List.length_cons, List.length_nil] at hfull ⊢
        omega
      rw [if_neg hfull] at hbmem
      exact ih (batch ++ [r]) hb' b hbmem

/-- Every chunk except possibly the last holds exactly B items. -/
lemma chunksOf_dropLast {α : Type} (B : Nat) :
    ∀ (rows batch : List α), batch.length < B →
      ∀ b ∈ (chunksOf B rows batch).dropLast, b.length = B := by
  intro rows
  induction rows with
  | nil =>
    intro batch _ b hbmem
    cases batch with
    | nil => simp [chunksOf] at hbmem
    | cons a l => simp [chunksOf] at hbmem
  | cons r rest ih =>
    intro batch hb b hbmem
    simp only [chunksOf] at hbmem
    by_cases hfull : (batch ++ [r]).length = B
    · have hB : 0 < B := by
        simp only [List.length_append, List.length_cons, List.length_nil] at hfull
        omega
      rw [if_pos hfull] at hbmem
      rcases hT : chunksOf B rest ([] : List α) with _ | ⟨t, ts⟩
      · rw [hT] at hbmem
        simp at hbmem
      · rw [hT, List.dropLast_cons₂] at hbmem
        rcases List.mem_cons.mp hbmem with h | h
        · subst h
          exact hfull
        · exact ih [] (by simp only [List.length_nil]; omega) b (hT ▸ h)
    · have hb' : (batch ++ [r]).length < B := by
        simp only [List.length_append, List.length_cons, List.length_nil] at hfull ⊢
        omega
      rw [if_neg hfull] at hbmem
      exact ih (batch ++ [r]) hb' b hbmem

/-- The batches processRows hands to batchWriteItems form a prefix of the
chunk partition of the mapped items: submission happens strictly in
partition order and stops at the first failing batch. -/
lemma processRowsGo_prefix (storeResp : Nat → List DynamoItem → List DynamoItem)
    (maxRetries base maxBatch : Nat) (numParse : String → Option String)
    (pkName pkType : Option String) :
    ∀ (rows : List Row) (batch : List DynamoItem),
      (processRowsGo storeResp maxRetries base maxBatch numParse pkName pkType rows batch).1 <+:
        chunksOf maxBatch (rows.map (mapRowToDynamoItem numParse pkName pkType)) batch := by
  intro rows
  induction rows with
  | nil =>
    intro batch
    cases batch with
    | nil => simp [processRowsGo, chunksOf]
    | cons a l => simp [processRowsGo, chunksOf]
  | cons row rest ih =>
    intro batch
    simp only [processRowsGo, List.map_cons, chunksOf]
    by_cases hfull :
        (batch ++ [mapRowToDynamoItem numParse pkName pkType row]).length = maxBatch
    · simp only [if_pos hfull]
      cases hres : (batchWriteItems storeResp maxRetries base
          (batch ++ [mapRowToDynamoItem numParse pkName pkType row])).result with
      | error e =>
        exact List.cons_prefix_cons.mpr ⟨rfl, List.nil_prefix⟩
      | ok u =>
        cases u
        exact List.cons_prefix_cons.mpr ⟨rfl, ih []⟩
    · simp only [if_neg hfull]
      exact ih (batch ++ [mapRowToDynamoItem numParse pkName pkType row])

/-- When every batch write succeeds, the submitted batches are exactly the
chunk partition of the mapped items, in order. -/
lemma processRowsGo_eq_of_ok (storeResp : Nat → List DynamoItem → List DynamoItem)
    (maxRetries base maxBatch : Nat) (numParse : String → Option String)
    (pkName pkType : Option String) :
    ∀ (rows : List Row) (batch : List DynamoItem),
      (processRowsGo storeResp maxRetries base maxBatch numParse pkName pkType rows batch).2 =
        .ok () →
      (processRowsGo storeResp maxRetries base maxBatch numParse pkName pkType rows batch).1 =
        chunksOf maxBatch (rows.map (mapRowToDynamoItem numParse pkName pkType)) batch := by
  intro rows
  induction rows with
  | nil =>
    intro batch _
    cases batch with
    | nil => simp [processRowsGo, chunksOf]
    | cons a l => simp [processRowsGo, chunksOf]
  | cons row rest ih =>
    intro batch hok
    simp only [processRowsGo, List.map_cons, chunksOf] at hok ⊢
    by_cases hfull :
        (batch ++ [mapRowToDynamoItem numParse pkName pkType row]).length = maxBatch
    · simp only [if_pos hfull] at hok ⊢
      cases hres : (batchWriteItems storeResp maxRetries base
          (batch ++ [mapRowToDynamoItem numParse pkName pkType row])).result with
      | error e =>
        rw [hres] at hok
        exact Except.noConfusion hok
      | ok u =>
        cases u
        rw [hres] at hok
        exact congrArg (fun t => (batch ++
          [mapRowToDynamoItem numParse pkName pkType row]) :: t) (ih [] hok)
    · simp only [if_neg hfull] at hok ⊢
      exact ih (batch ++ [mapRowToDynamoItem numParse pkName pkType row]) hok

/-! ## Claim about the batch partition -/

/-- C6: processRows partitions the mapped items, in arrival order, into
ceil(N / B) batches of exactly B items each except possibly the last, which
holds the remainder (between 1 and B items); the batches handed to
batchWriteItems are exactly those chunks in partition order (a prefix of
them when a batch fails, all of them when every write succeeds, a later
batch being submitted only after the previous one fully resolved). -/
theorem processRows_partitions (env : OrchEnv) (pkName pkType : Option String)
    (rows : List Row) (hB : 0 < env.maxBatchSize) :
    (chunksOf env.maxBatchSize
        (rows.map (mapRowToDynamoItem env.numParse pkName pkType)) []).flatten =
      rows.map (mapRowToDynamoItem env.numParse pkName pkType) ∧
    (chunksOf env.maxBatchSize
        (rows.map (mapRowToDynamoItem env.numParse pkName pkType)) []).length =
      (rows.length + env.maxBatchSize - 1) / env.maxBatchSize ∧
    (∀ b ∈ (chunksOf env.maxBatchSize
        (rows.map (mapRowToDynamoItem env.numParse pkName pkType)) []).dropLast,
      b.length = env.maxBatchSize) ∧
    (∀ b ∈ chunksOf env.maxBatchSize
        (rows.map (mapRowToDynamoItem env.numParse pkName pkType)) [],
      1 ≤ b.length ∧ b.length ≤ env.maxBatchSize) ∧
    (processRows env pkName pkType rows).1 <+:
      chunksOf env.maxBatchSize
        (rows.map (mapRowToDynamoItem env.numParse pkName pkType)) [] ∧
    ((processRows env pkName pkType rows).2 = .ok () →
      (processRows env pkName pkType rows).1 =
        chunksOf env.maxBatchSize
          (rows.map (mapRowToDynamoItem env.numParse pkName pkType)) []) := by
  have h0 : ([] : List DynamoItem).length < env.maxBatchSize := by
    simpa using hB
  refine ⟨?_, ?_, ?_, ?_, ?_, ?_⟩
  · rw [chunksOf_join env.maxBatchSize _ [] h0]
    rfl
  · rw [chunksOf_length env.maxBatchSize _ [] h0]
    simp
  · exact chunksOf_dropLast env.maxBatchSize _ [] h0
  · exact chunksOf_sizes env.maxBatchSize _ [] h0
  · exact processRowsGo_prefix env.storeResp env.maxRetries env.baseDelayMs env.maxBatchSize
      env.numParse pkName pkType rows []
  · exact processRowsGo_eq_of_ok env.storeResp env.maxRetries env.baseDelayMs
      env.maxBatchSize env.numParse pkName pkType rows []

/-- An environment whose store accepts every submission on the first
attempt, used to instantiate witnesses. -/
abbrev respAccepting : DescribeTableOutput :=
  ⟨some ⟨some [⟨some "id", some "HASH"⟩], some [⟨some "id", some "S"⟩]⟩⟩

abbrev envAccepting : OrchEnv :=
  { describeTable := .ok respAccepting
    s3GetObject := fun _ _ => .ok (some "")
    csvParseLib := fun _ => .ok []
    storeResp := fun _ _ => []
    decodeURIComponent := fun s => s
    numParse := fun _ => none
    maxBatchSize := 2
    maxRetries := 5
    baseDelayMs := 200 }

theorem processRows_partitions_witness :
    (processRows envAccepting (some "id") (some "S")
        [[("id", "1")], [("id", "2")], [("id", "3")], [("id", "4")], [("id", "5")]]).1 =
      chunksOf envAccepting.maxBatchSize
        ([[("id", "1")], [("id", "2")], [("id", "3")], [("id", "4")], [("id", "5")]].map
          (mapRowToDynamoItem envAccepting.numParse (some "id") (some "S"))) [] ∧
    (chunksOf envAccepting.maxBatchSize
        ([[("id", "1")], [("id", "2")], [("id", "3")], [("id", "4")], [("id", "5")]].map
          (mapRowToDynamoItem envAccepting.numParse (some "id") (some "S"))) []).length =
      3 := by
  have h := processRows_partitions envAccepting (some "id") (some "S")
    [[("id", "1")], [("id", "2")], [("id", "3")], [("id", "4")], [("id", "5")]] (by decide)
  refine ⟨h.2.2.2.2.2 (by decide), ?_⟩
  rw [h.2.1]
  rfl

/-! ## Claims about the orchestrator -/

/-- C4: any component failure aborts the run immediately and the exported
handler rethrows the very error the failing component raised: a
schema-resolution failure, an S3 fetch failure, a decode failure and a
batch-write failure each surface unchanged to the caller (the handler
catches only to log and rethrows the same error). -/
theorem handler_propagates_verbatim (env : OrchEnv) (r : S3Record) (rs : List S3Record) :
    (∀ e, loadPartitionKeyMetadata env.describeTable = .error e →
      handler env (r :: rs) = .error e) ∧
    (∀ e pk, loadPartitionKeyMetadata env.describeTable = .ok pk →
      getCSVFileContent env r.bucket (env.decodeURIComponent (plusToSpace r.key)) =
        .error e →
      handler env (r :: rs) = .error e) ∧
    (∀ e pk content, loadPartitionKeyMetadata env.describeTable = .ok pk →
      getCSVFileContent env r.bucket (env.decodeURIComponent (plusToSpace r.key)) =
        .ok content →
      parseCSV env content = .error e →
      handler env (r :: rs) = .error e) ∧
    (∀ e pk content rows, loadPartitionKeyMetadata env.describeTable = .ok pk →
      getCSVFileContent env r.bucket (env.decodeURIComponent (plusToSpace r.key)) =
        .ok content →
      parseCSV env content = .ok rows →
      (processRows env pk.1 pk.2 rows).2 = .error e →
      handler env (r :: rs) = .error e) := by
  refine ⟨?_, ?_, ?_, ?_⟩
  · intro e h
    simp only [handler, handleEventTraced, h]
  · intro e pk h1 h2
    obtain ⟨pn, pt⟩ := pk
    simp only [handler, handleEventTraced, h1, h2]
  · intro e pk content h1 h2 h3
    obtain ⟨pn, pt⟩ := pk
    simp only [handler, handleEventTraced, h1, h2, h3]
  · intro e pk content rows h1 h2 h3 h4
    obtain ⟨pn, pt⟩ := pk
    simp only [handler, handleEventTraced, h1, h2, h3]
    simp only at h4
    simp only [h4]

/-- An environment in which the metadata read fails, used to instantiate a
witness for error propagation. -/
abbrev envNoTable : OrchEnv :=
  { envAccepting with describeTable := .error "ResourceNotFoundException" }

theorem handler_propagates_verbatim_witness :
    handler envNoTable [⟨"bucket", "data.csv"⟩] = .error "ResourceNotFoundException" :=
  (handler_propagates_verbatim envNoTable ⟨"bucket", "data.csv"⟩ []).1
    "ResourceNotFoundException" rfl

/-- C10: only the first record of the event is consulted: the traced run on
record :: rest coincides with the run on the first record alone, so the
objects named by later records are never fetched, decoded or written; every
fetch performed names the object of the first record; and the handler reports no
signal about the skipped records (its outcome is identical to the
single-record outcome). -/
theorem handler_first_record_only (env : OrchEnv) (r : S3Record) (rs : List S3Record) :
    handleEventTraced env (r :: rs) = handleEventTraced env [r] ∧
    handler env (r :: rs) = handler env [r] ∧
    (∀ p ∈ (handleEventTraced env (r :: rs)).1,
      p = (r.bucket, env.decodeURIComponent (plusToSpace r.key))) := by
  refine ⟨rfl, rfl, ?_⟩
  have htr : (handleEventTraced env (r :: rs)).1 = [] ∨
      (handleEventTraced env (r :: rs)).1 =
        [(r.bucket, env.decodeURIComponent (plusToSpace r.key))] := by
    simp only [handleEventTraced]
    split
    · exact Or.inl rfl
    · split
      · exact Or.inr rfl
      · split
        · exact Or.inr rfl
        · exact Or.inr rfl
  intro p hp
  rcases htr with h | h
  · rw [h] at hp
    simp at hp
  · rw [h] at hp
    simpa using hp

theorem handler_first_record_only_witness :
    handler envAccepting [⟨"b", "k.csv"⟩, ⟨"b2", "other.csv"⟩] =
      handler envAccepting [⟨"b", "k.csv"⟩] ∧
    (("b", "k.csv") : String × String) =
      ((⟨"b", "k.csv"⟩ : S3Record).bucket,
        envAccepting.decodeURIComponent (plusToSpace (⟨"b", "k.csv"⟩ : S3Record).key)) :=
  ⟨(handler_first_record_only envAccepting ⟨"b", "k.csv"⟩ [⟨"b2", "other.csv"⟩]).2.1,
   (handler_first_record_only envAccepting ⟨"b", "k.csv"⟩ [⟨"b2", "other.csv"⟩]).2.2
     ("b", "k.csv") (by decide)⟩

/-! ## Claims about schema resolution -/

/-- A table description whose hash key is declared with the binary type B. -/
abbrev respBinaryKey : DescribeTableOutput :=
  ⟨some ⟨some [⟨some "id", some "HASH"⟩], some [⟨some "id", some "B"⟩]⟩⟩

/-- C2 counterexample: a hash key declared with the binary attribute type B
is accepted — resolution succeeds and returns the unvalidated type instead
of failing with a schema-resolution error. -/
theorem loadPartitionKeyMetadata_acceptsBinary_cex :
    loadPartitionKeyMetadata (.ok respBinaryKey) = .ok (some "id", some "B") := by
  rfl

/-- C2 (amended): schema resolution fails exactly when the metadata read
itself fails (for instance the table cannot be described) or when no
HASH-role key entry, or no attribute definition matching the name of that entry,
is found; when several HASH entries exist the first is used, and the
declared attribute type is not validated — any declared type, including
binary, is accepted and returned as-is. -/
theorem loadPartitionKeyMetadata_failure_iff (e : String) (resp : DescribeTableOutput) :
    loadPartitionKeyMetadata (.error e) = .error e ∧
    ((∃ msg, loadPartitionKeyMetadata (.ok resp) = .error msg) ↔
      (findHashKey resp = none ∨ findAttrDef resp (findHashKey resp) = none)) ∧
    (∀ ks ad, findHashKey resp = some ks → findAttrDef resp (findHashKey resp) = some ad →
      loadPartitionKeyMetadata (.ok resp) = .ok (ks.AttributeName, ad.AttributeType)) := by
  refine ⟨rfl, ?_, ?_⟩
  · constructor
    · rintro ⟨msg, hmsg⟩
      by_contra hcon
      push_neg at hcon
      obtain ⟨h1, h2⟩ := hcon
      rcases hks : findHashKey resp with _ | ks
      · exact h1 hks
      rcases had : findAttrDef resp (findHashKey resp) with _ | ad
      · exact h2 had
      rw [hks] at had
      simp only [loadPartitionKeyMetadata, hks, had] at hmsg
      exact Except.noConfusion hmsg
    · intro h
      refine ⟨"Unable to determine partition key schema from DynamoDB table.", ?_⟩
      rcases hks : findHashKey resp with _ | ks
      · simp only [loadPartitionKeyMetadata, hks]
      · rcases h with h | h
        · rw [hks] at h
          exact Option.noConfusion h
        · rw [hks] at h
          simp only [loadPartitionKeyMetadata, hks, h]
  · intro ks ad hks had
    rw [hks] at had
    simp only [loadPartitionKeyMetadata, hks, had]

theorem loadPartitionKeyMetadata_failure_iff_witness :
    loadPartitionKeyMetadata (.error "ResourceNotFoundException") =
      (.error "ResourceNotFoundException" :
        Except String (Option String × Option String)) ∧
    loadPartitionKeyMetadata (.ok respAccepting) = .ok (some "id", some "S") :=
  ⟨(loadPartitionKeyMetadata_failure_iff "ResourceNotFoundException" respAccepting).1,
   (loadPartitionKeyMetadata_failure_iff "ResourceNotFoundException" respAccepting).2.2
     ⟨some "id", some "HASH"⟩ ⟨some "id", some "S"⟩ (by decide) (by decide)⟩

end CSV2Dynamo
